import Mathlib

/-!
Verification of the annotation session engine of `coding_interface.py`
(FOMC argument human coding interface).

The embedding below translates the engine logic of the source file:
the resume-file validator (`validate_resume_csv`, lines 86-110), the
session-state initialisation (`initialize_session_state`-like defaults,
lines 113-127), the resume loader (the "Load Session" block, lines
277-315), the commit path of the "Save & Continue" button (lines
504-544) and the export serializer (`get_results_csv`, lines 72-75).

Modelling conventions:
* A CSV table is modelled as a list of typed rows together with the
  list of column names the table actually has (`ResumeTable.cols`).
  A field of a row is meaningful only when its column is listed in
  `cols`; every read the Python code performs on a row uses
  `dict.get(key, default)`, which is modelled by testing column
  membership and falling back to the default.
* Python `None` cells and empty CSV cells are both modelled as `none`
  of an `Option` field; serialising a record set to CSV and re-parsing
  it round-trips the typed cell values, so the export artifact is the
  record list itself paired with the full column set.
* `st.session_state` is the `SessionState` structure; the Streamlit
  widgets' guarantees (a number input clamped to [-3, 3], a radio with
  options "Yes"/"No") are modelled by the predicate `FormWF` on the
  form snapshot read at commit time.
-/

namespace FomcCoding

/-- One row of the coding data (`coding_df`): an item of the Item Store,
addressed by `coding_id` and by position. -/
structure CodingItem where
  coding_id : String
  quotation : String
  description : Option String := none
  explanation : Option String := none
  deriving DecidableEq

/-- One coding result, as built by the `result = {...}` dict of the
Save & Continue handler (lines 511-524).  The Python key `variable` is a
Lean keyword, so the field is named `varName`.  Conditional fields are
`Option`s (`none` models Python `None` / an empty CSV cell). -/
structure CodingRecord where
  coding_id : String
  coder_name : String
  varName : String
  score : Int
  cites_data : String
  data_categories : Option String
  data_category_other : Option String
  information_type : Option String
  argument_category : String
  argument_category_other : Option String
  notes : String
  coded_at : Nat
  deriving DecidableEq

/-- A parsed resume CSV: the column names the file has, and its rows.
Row fields whose column is not in `cols` are ignored by every access
the code performs (each access goes through `dict.get` with a default,
modelled by a membership test on `cols`). -/
structure ResumeTable where
  cols : List String
  rows : List CodingRecord
  deriving DecidableEq

/-- The mutable session state of the engine (`st.session_state`):
cursor, accumulated record list, set of already-coded ids, widget
epoch, and the two identity fields locked after the first save. -/
structure SessionState where
  current_index : Nat
  results : List CodingRecord
  coded_ids : Finset String
  widget_version : Nat
  locked_coder_name : Option String
  locked_variable : Option String

/-- The state produced by `initialize_session_state` (lines 113-127)
on a fresh session. -/
def initialSessionState : SessionState :=
  { current_index := 0
    results := []
    coded_ids := ∅
    widget_version := 0
    locked_coder_name := none
    locked_variable := none }

/-- Snapshot of the form widgets read by the Save & Continue handler:
score input, cites-data radio, the checked data categories (other than
the "Other / No Good Match" checkbox, which is `other_checked`), the
conditional free-text fields, the information-type radio, the argument
category select box and the notes area. -/
structure FormState where
  score : Int
  cites_data : String
  data_cats_checked : List String
  other_checked : Bool
  data_other_text : String
  info_type : String
  argument_category : String
  argument_category_other_text : String
  notes : String
  deriving DecidableEq

/-- Guarantees the widgets enforce on the form snapshot: the score
number input has `min_value=-3, max_value=3` (lines 376-384) and the
cites-data radio offers exactly "Yes" and "No" (lines 393-399). -/
def FormWF (f : FormState) : Prop :=
  (-3 ≤ f.score ∧ f.score ≤ 3) ∧ (f.cites_data = "Yes" ∨ f.cites_data = "No")

/-- Python `'; '.join(lst)`. -/
def joinSemi (l : List String) : String :=
  String.intercalate ("; ") l

/-- The `data_categories` list accumulated by the checkbox loop of
lines 401-430: it stays empty unless `cites_data == "Yes"`, and the
"Other / No Good Match" entry is appended when its checkbox is set. -/
def dataCategoriesList (f : FormState) : List String :=
  if f.cites_data = "Yes" then
    f.data_cats_checked ++ (if f.other_checked then ["Other / No Good Match"] else [])
  else []

/-- The `result` dict built on commit (lines 511-524): identity fields
come from the locked values, `data_categories` is the joined list or
`None` when the list is empty, `data_category_other` is set only inside
the "Other / No Good Match" checkbox branch (which renders only when
`cites_data == "Yes"`), `information_type` only when
`cites_data == "Yes"`, and `argument_category_other` only when the
"Other / No Good Match" sentinel is the selected category. -/
def buildRecord (lockedName lockedVar cid : String) (f : FormState) (now : Nat) :
    CodingRecord :=
  { coding_id := cid
    coder_name := lockedName
    varName := lockedVar
    score := f.score
    cites_data := f.cites_data
    data_categories :=
      if dataCategoriesList f = [] then none else some (joinSemi (dataCategoriesList f))
    data_category_other :=
      if f.cites_data = "Yes" ∧ f.other_checked then some f.data_other_text else none
    information_type := if f.cites_data = "Yes" then some f.info_type else none
    argument_category := f.argument_category
    argument_category_other :=
      if f.argument_category = "Other / No Good Match" then
        some f.argument_category_other_text
      else none
    notes := f.notes
    coded_at := now }

/-- The update-or-append loop of the commit handler (lines 527-538):
the first entry whose `coding_id` matches is replaced wholesale,
otherwise the record is appended at the end. -/
def upsert (results : List CodingRecord) (r : CodingRecord) : List CodingRecord :=
  match results with
  | [] => [r]
  | x :: xs => if x.coding_id = r.coding_id then r :: xs else x :: upsert xs r

/-- `coding_df.iloc[i]`, made total with a dummy item; every use in a
theorem is guarded by an in-range bound. -/
def itemAt (items : List CodingItem) (i : Nat) : CodingItem :=
  items.getD i { coding_id := "", quotation := "" }

/-- The Save & Continue handler (lines 504-544): lock the identity
fields if unlocked, build the record, upsert it into `results`, add the
id to `coded_ids`, and advance the cursor only while
`current_index < total_arguments - 1`. -/
def saveAndContinue (items : List CodingItem) (coder_name varSel : String)
    (f : FormState) (now : Nat) (st : SessionState) : SessionState :=
  { current_index :=
      if st.current_index < items.length - 1 then st.current_index + 1
      else st.current_index
    results :=
      upsert st.results
        (buildRecord (st.locked_coder_name.getD coder_name)
          (st.locked_variable.getD varSel)
          (itemAt items st.current_index).coding_id f now)
    coded_ids := insert (itemAt items st.current_index).coding_id st.coded_ids
    widget_version := st.widget_version
    locked_coder_name := some (st.locked_coder_name.getD coder_name)
    locked_variable := some (st.locked_variable.getD varSel) }

/-- The `required_cols` of `validate_resume_csv` (line 93). -/
def requiredCols : List String :=
  ["coding_id", "coder_name", "score"]

/-- The `set(resume_df['coding_id'].tolist())` of line 98. -/
def resumeIds (t : ResumeTable) : Finset String :=
  (t.rows.map (fun r => r.coding_id)).toFinset

/-- The `set(coding_df['coding_id'].tolist())` of line 99. -/
def codingIds (coding : List CodingItem) : Finset String :=
  (coding.map (fun it => it.coding_id)).toFinset

/-- The outcome message of `validate_resume_csv`: the three message
shapes of lines 96, 105, 108 and 110, with the data each embeds. -/
inductive ResumeMessage where
  | missingColumns (missing : List String)
  | noOverlap
  | warningDropped (nIds : Nat)
  | validated (nMatching : Nat)
  deriving DecidableEq

/-- `validate_resume_csv(resume_df, coding_df)` (lines 86-110): returns
`(is_valid, message, matching_ids)`.  Fails when a required column is
missing, then when the id intersection is empty; otherwise succeeds,
with a warning carrying the number of ids of the file that are not in
the current coding data. -/
def validate_resume_csv (t : ResumeTable) (coding : List CodingItem) :
    Bool × ResumeMessage × Finset String :=
  if ¬ (∀ c ∈ requiredCols, c ∈ t.cols) then
    (false, ResumeMessage.missingColumns (requiredCols.filter (fun c => decide (c ∉ t.cols))), ∅)
  else if (resumeIds t ∩ codingIds coding).card = 0 then
    (false, ResumeMessage.noOverlap, ∅)
  else if 0 < (resumeIds t \ codingIds coding).card then
    (true, ResumeMessage.warningDropped (resumeIds t \ codingIds coding).card,
      resumeIds t ∩ codingIds coding)
  else
    (true, ResumeMessage.validated (resumeIds t ∩ codingIds coding).card,
      resumeIds t ∩ codingIds coding)

/-- The `valid_results` of line 290: the rows of the resume file whose
`coding_id` is among the matching ids returned by the validator. -/
def acceptedRows (t : ResumeTable) (coding : List CodingItem) : List CodingRecord :=
  t.rows.filter (fun r => decide (r.coding_id ∈ (validate_resume_csv t coding).2.2))

/-- The `coded_ids` rebuilt on resume (line 293): the set of
`coding_id` values of the accepted rows. -/
def acceptedIds (t : ResumeTable) (coding : List CodingItem) : Finset String :=
  ((acceptedRows t coding).map (fun r => r.coding_id)).toFinset

/-- The cursor search of lines 303-309: the Python loop over
`range(len(coding_df))` that stops at the first index whose item id is
not in `coded_ids`, returning `none` when the loop finds nothing. -/
def firstUncodedFrom (coding : List CodingItem) (coded : Finset String) : Option Nat :=
  match coding with
  | [] => none
  | it :: rest =>
    if it.coding_id ∈ coded then (firstUncodedFrom rest coded).map (fun i => i + 1)
    else some 0

/-- The "Load Session" handler (lines 277-315).  On a failed validation
the state is untouched.  On success: `results` and `coded_ids` are
replaced by the accepted rows, the identity fields are locked from the
first accepted row via `dict.get` (falling back to the sidebar values
`coder_name` / `varSel` when the corresponding column is absent from
the file), the widget version is bumped, and the cursor moves to the
first uncoded item, or to the last item (`len(coding_df) - 1`) when
every item is already coded. -/
def loadSession (st : SessionState) (t : ResumeTable) (coding : List CodingItem)
    (coder_name varSel : String) : SessionState :=
  if (validate_resume_csv t coding).1 = true then
    { current_index :=
        match firstUncodedFrom coding (acceptedIds t coding) with
        | some i => i
        | none => coding.length - 1
      results := acceptedRows t coding
      coded_ids := acceptedIds t coding
      widget_version := st.widget_version + 1
      locked_coder_name :=
        match acceptedRows t coding with
        | [] => st.locked_coder_name
        | r :: _ => some (if "coder_name" ∈ t.cols then r.coder_name else coder_name)
      locked_variable :=
        match acceptedRows t coding with
        | [] => st.locked_variable
        | r :: _ => some (if "variable" ∈ t.cols then r.varName else varSel) }
  else st

/-- The column set of the export artifact: the keys of the `result`
dict (lines 511-524), which `pd.DataFrame` turns into the CSV header. -/
def allColumns : List String :=
  ["coding_id", "coder_name", "variable", "score", "cites_data", "data_categories",
   "data_category_other", "information_type", "argument_category",
   "argument_category_other", "notes", "coded_at"]

/-- `get_results_csv(results)` (lines 72-75) composed with the
`pd.read_csv` that re-ingests the artifact on resume: one row per
record with the full column set; typed cell values round-trip, and a
`None` cell comes back absent (`none`) again. -/
def exportTable (results : List CodingRecord) : ResumeTable :=
  { cols := allColumns, rows := results }

/-- Conditional-field integrity of a record, as stated by the spec:
no data fields when `cites_data` is "No", no orphaned "other" text
without the corresponding category, and no argument "other" text
without the "Other / No Good Match" sentinel. -/
def ConditionalIntegrity (r : CodingRecord) : Prop :=
  (r.cites_data = "No" →
    r.data_categories = none ∧ r.data_category_other = none ∧
      r.information_type = none) ∧
  (r.data_category_other ≠ none →
    ∃ l, "Other / No Good Match" ∈ l ∧ r.data_categories = some (joinSemi l)) ∧
  (¬ r.argument_category = "Other / No Good Match" → r.argument_category_other = none)

/-- The coded-id bookkeeping invariant: `coded_ids` is exactly the set
of `coding_id` values of the stored records. -/
def CodedConsistent (st : SessionState) : Prop :=
  st.coded_ids = (st.results.map (fun r => r.coding_id)).toFinset

/-- The locking invariant: every stored record carries the locked
coder name and variable. -/
def LockedConsistent (st : SessionState) : Prop :=
  ∀ x ∈ st.results, st.locked_coder_name = some x.coder_name ∧
    st.locked_variable = some x.varName

/-- A three-item Item Store `[Q1, Q2, Q3]` used by the concrete
scenarios. -/
def storeB : List CodingItem :=
  [{ coding_id := "Q1", quotation := "q1" },
   { coding_id := "Q2", quotation := "q2" },
   { coding_id := "Q3", quotation := "q3" }]

/-- A one-item Item Store `[Q1]`. -/
def store1 : List CodingItem :=
  [{ coding_id := "Q1", quotation := "q1" }]

/-- A form snapshot with `cites_data = "No"` and the given score. -/
def formNo (n : Int) : FormState :=
  { score := n
    cites_data := "No"
    data_cats_checked := []
    other_checked := false
    data_other_text := ""
    info_type := "Public Information"
    argument_category := "Growth"
    argument_category_other_text := ""
    notes := "" }

/-- A resume-file row with the given id, coder, variable and score, and
all conditional fields absent. -/
def mkRow (cid name vr : String) (sc : Int) : CodingRecord :=
  { coding_id := cid
    coder_name := name
    varName := vr
    score := sc
    cites_data := "No"
    data_categories := none
    data_category_other := none
    information_type := none
    argument_category := "Growth"
    argument_category_other := none
    notes := ""
    coded_at := 0 }

/-- A session over `storeB` in which all three items have been
committed via Save & Continue (Scenario B of the spec). -/
def sessionB : SessionState :=
  saveAndContinue storeB "alice" "Inflation" (formNo 2) 2
    (saveAndContinue storeB "alice" "Inflation" (formNo 1) 1
      (saveAndContinue storeB "alice" "Inflation" (formNo 0) 0 initialSessionState))

/-- Scenario C resume artifact: ids `{Q1, Q5}`, to be resumed against
the store `{Q1, Q2, Q3}`. -/
def tC : ResumeTable :=
  { cols := ["coding_id", "coder_name", "score", "variable"]
    rows := [mkRow ("Q1") ("alice") ("Inflation") 1, mkRow ("Q5") ("alice") ("Inflation") 2] }

/-- A schema-valid resume artifact that has no `variable` column. -/
def t5 : ResumeTable :=
  { cols := ["coding_id", "coder_name", "score"]
    rows := [mkRow ("Q1") ("alice") ("Inflation") 1] }

/-- A record violating conditional-field integrity: `cites_data = "No"`
yet `data_categories` present. -/
def badRec : CodingRecord :=
  { (mkRow ("Q1") ("alice") ("Inflation") 1) with data_categories := some "GDP" }

/-- A resume artifact carrying `badRec`. -/
def t6 : ResumeTable :=
  { cols := allColumns, rows := [badRec] }

/-- A resume artifact whose only row carries the out-of-range score 7. -/
def t7 : ResumeTable :=
  { cols := allColumns, rows := [mkRow ("Q1") ("alice") ("Inflation") 7] }

/-- A form snapshot in which the "Other / No Good Match" argument
category is selected but its required free-text field is empty. -/
def f8 : FormState :=
  { score := 0
    cites_data := "No"
    data_cats_checked := []
    other_checked := false
    data_other_text := ""
    info_type := "Public Information"
    argument_category := "Other / No Good Match"
    argument_category_other_text := ""
    notes := "" }

/-- A form snapshot citing data with the "Other / No Good Match" data
category checked. -/
def formYes : FormState :=
  { score := 1
    cites_data := "Yes"
    data_cats_checked := ["GDP"]
    other_checked := true
    data_other_text := "survey"
    info_type := "Public Information"
    argument_category := "Growth"
    argument_category_other_text := ""
    notes := "" }

/-- A fresh session positioned on the final item of `storeB`. -/
def s9 : SessionState :=
  { initialSessionState with current_index := 2 }

/-- A resume artifact with two rows sharing the `coding_id` `Q1`. -/
def t10 : ResumeTable :=
  { cols := ["coding_id", "coder_name", "score"]
    rows := [mkRow ("Q1") ("a") ("I") 1, mkRow ("Q1") ("a") ("I") 2] }

/-- A resume artifact with two rows sharing the unmatched id `Q9` and
one row matching `Q1`. -/
def t2cx : ResumeTable :=
  { cols := ["coding_id", "coder_name", "score"]
    rows := [mkRow ("Q9") ("a") ("I") 1, mkRow ("Q9") ("a") ("I") 2, mkRow ("Q1") ("a") ("I") 0] }

/-- The committed record keeps the key it was built for. -/
lemma buildRecord_coding_id (ln lv cid : String) (f : FormState) (now : Nat) :
    (buildRecord ln lv cid f now).coding_id = cid := rfl

/-- The record given to `upsert` is always present afterwards. -/
lemma upsert_self_mem (rs : List CodingRecord) (r : CodingRecord) : r ∈ upsert rs r := by
  induction rs with
  | nil => simp [upsert]
  | cons x xs ih =>
    rw [upsert]
    by_cases h : x.coding_id = r.coding_id
    · rw [if_pos h]
      exact List.mem_cons_self _ _
    · rw [if_neg h]
      exact List.mem_cons_of_mem _ ih

/-- Every element after an `upsert` is the new record or an old one. -/
lemma mem_upsert {rs : List CodingRecord} {r x : CodingRecord} (h : x ∈ upsert rs r) :
    x = r ∨ x ∈ rs := by
  induction rs with
  | nil =>
    simp [upsert] at h
    exact Or.inl h
  | cons y ys ih =>
    rw [upsert] at h
    by_cases hy : y.coding_id = r.coding_id
    · rw [if_pos hy] at h
      rcases List.mem_cons.mp h with h1 | h2
      · exact Or.inl h1
      · exact Or.inr (List.mem_cons_of_mem _ h2)
    · rw [if_neg hy] at h
      rcases List.mem_cons.mp h with h1 | h2
      · exact Or.inr (h1 ▸ List.mem_cons_self _ _)
      · rcases ih h2 with h3 | h4
        · exact Or.inl h3
        · exact Or.inr (List.mem_cons_of_mem _ h4)

/-- Key list after an `upsert`: unchanged when the key was present,
extended by the new key otherwise. -/
lemma upsert_map_ids (rs : List CodingRecord) (r : CodingRecord) :
    (upsert rs r).map (fun z => z.coding_id) =
      if r.coding_id ∈ rs.map (fun z => z.coding_id) then rs.map (fun z => z.coding_id)
      else rs.map (fun z => z.coding_id) ++ [r.coding_id] := by
  induction rs with
  | nil => simp [upsert]
  | cons y ys ih =>
    rw [upsert]
    by_cases hy : y.coding_id = r.coding_id
    · have hmem : r.coding_id ∈ (y :: ys).map (fun z => z.coding_id) := by
        simp only [List.map_cons, List.mem_cons]
        exact Or.inl hy.symm
      rw [if_pos hy, if_pos hmem]
      simp [hy]
    · rw [if_neg hy]
      by_cases hm : r.coding_id ∈ ys.map (fun z => z.coding_id)
      · have hmem : r.coding_id ∈ (y :: ys).map (fun z => z.coding_id) := by
          simp only [List.map_cons, List.mem_cons]
          exact Or.inr hm
        rw [if_pos hmem]
        simp only [List.map_cons, ih, if_pos hm]
      · have hnm : r.coding_id ∉ (y :: ys).map (fun z => z.coding_id) := by
          simp only [List.map_cons, List.mem_cons]
          rintro (h | h)
          · exact hy h.symm
          · exact hm h
        rw [if_neg hnm]
        simp only [List.map_cons, ih, if_neg hm, List.cons_append]

/-- Upserting a second record with the same key overwrites the first
upsert completely. -/
lemma upsert_upsert (rs : List CodingRecord) {r r2 : CodingRecord}
    (h : r2.coding_id = r.coding_id) : upsert (upsert rs r) r2 = upsert rs r2 := by
  induction rs with
  | nil =>
    show upsert [r] r2 = [r2]
    rw [upsert, if_pos h.symm]
  | cons y ys ih =>
    by_cases hy : y.coding_id = r.coding_id
    · have hy2 : y.coding_id = r2.coding_id := hy.trans h.symm
      rw [upsert, if_pos hy, upsert, if_pos h.symm, upsert, if_pos hy2]
    · have hy2 : ¬ y.coding_id = r2.coding_id := fun hh => hy (hh.trans h)
      rw [upsert, if_neg hy, upsert, if_neg hy2, upsert, if_neg hy2, ih]

/-- With pairwise-distinct keys, an `upsert` removes every trace of the
old entry for the key: what remains is the new record, or an old record
with a different key. -/
lemma mem_upsert_of_nodup {rs : List CodingRecord} {r x : CodingRecord}
    (hnd : (rs.map (fun z => z.coding_id)).Nodup) (h : x ∈ upsert rs r) :
    x = r ∨ (x ∈ rs ∧ x.coding_id ≠ r.coding_id) := by
  induction rs with
  | nil =>
    simp [upsert] at h
    exact Or.inl h
  | cons y ys ih =>
    simp only [List.map_cons, List.nodup_cons] at hnd
    rw [upsert] at h
    by_cases hy : y.coding_id = r.coding_id
    · rw [if_pos hy] at h
      rcases List.mem_cons.mp h with h1 | h2
      · exact Or.inl h1
      · refine Or.inr ⟨List.mem_cons_of_mem _ h2, fun hx => ?_⟩
        exact hnd.1 (by rw [hy, ← hx]; exact List.mem_map_of_mem _ h2)
    · rw [if_neg hy] at h
      rcases List.mem_cons.mp h with h1 | h2
      · subst h1
        exact Or.inr ⟨List.mem_cons_self _ _, hy⟩
      · rcases ih hnd.2 h2 with h3 | h4
        · exact Or.inl h3
        · exact Or.inr ⟨List.mem_cons_of_mem _ h4.1, h4.2⟩

/-- `upsert` preserves key uniqueness. -/
lemma upsert_ids_nodup {rs : List CodingRecord} (r : CodingRecord)
    (hnd : (rs.map (fun z => z.coding_id)).Nodup) :
    ((upsert rs r).map (fun z => z.coding_id)).Nodup := by
  rw [upsert_map_ids]
  by_cases hm : r.coding_id ∈ rs.map (fun z => z.coding_id)
  · rw [if_pos hm]
    exact hnd
  · rw [if_neg hm]
    simp [List.nodup_append, hnd, hm]

/-- Replacing an existing entry keeps the record count. -/
lemma upsert_length_mem {rs : List CodingRecord} (r : CodingRecord)
    (hm : r.coding_id ∈ rs.map (fun z => z.coding_id)) :
    (upsert rs r).length = rs.length := by
  have h := congrArg List.length (upsert_map_ids rs r)
  rw [if_pos hm] at h
  simpa using h

/-- A record with a fresh key is appended at the end. -/
lemma upsert_eq_append {rs : List CodingRecord} (r : CodingRecord)
    (hm : r.coding_id ∉ rs.map (fun z => z.coding_id)) :
    upsert rs r = rs ++ [r] := by
  induction rs with
  | nil => simp [upsert]
  | cons y ys ih =>
    simp only [List.map_cons, List.mem_cons] at hm
    push_neg at hm
    rw [upsert, if_neg (fun hh => hm.1 hh.symm), ih hm.2]
    simp

/-- If every item is coded, the cursor loop finds nothing. -/
lemma firstUncodedFrom_eq_none {coding : List CodingItem} {coded : Finset String}
    (h : ∀ it ∈ coding, it.coding_id ∈ coded) : firstUncodedFrom coding coded = none := by
  induction coding with
  | nil => rfl
  | cons it rest ih =>
    rw [firstUncodedFrom, if_pos (h it (List.mem_cons_self _ _)),
      ih (fun x hx => h x (List.mem_cons_of_mem _ hx))]
    rfl

/-- When the cursor loop returns an index, it is in range, its item is
uncoded, and every earlier item is coded. -/
lemma firstUncodedFrom_spec {coding : List CodingItem} {coded : Finset String} {i : Nat}
    (h : firstUncodedFrom coding coded = some i) :
    i < coding.length ∧ (itemAt coding i).coding_id ∉ coded ∧
      ∀ j, j < i → (itemAt coding j).coding_id ∈ coded := by
  induction coding generalizing i with
  | nil => simp [firstUncodedFrom] at h
  | cons it rest ih =>
    rw [firstUncodedFrom] at h
    by_cases hc : it.coding_id ∈ coded
    · rw [if_pos hc] at h
      cases hrec : firstUncodedFrom rest coded with
      | none =>
        rw [hrec] at h
        simp at h
      | some k =>
        rw [hrec] at h
        have hik : i = k + 1 := by simpa using h.symm
        obtain ⟨h1, h2, h3⟩ := ih hrec
        subst hik
        refine ⟨by simpa using Nat.succ_lt_succ h1, ?_, ?_⟩
        · simpa [itemAt, List.getD_cons_succ] using h2
        · intro j hj
          cases j with
          | zero => simpa [itemAt] using hc
          | succ j2 =>
            have hj2 : j2 < k := Nat.lt_of_succ_lt_succ hj
            simpa [itemAt, List.getD_cons_succ] using h3 j2 hj2
    · rw [if_neg hc] at h
      have hi0 : i = 0 := by simpa using h.symm
      subst hi0
      exact ⟨Nat.succ_pos _, by simpa [itemAt] using hc, by intro j hj; omega⟩

/-- A successful validation implies all required columns are present. -/
lemma validate_cols_of_ok {t : ResumeTable} {coding : List CodingItem}
    (h : (validate_resume_csv t coding).1 = true) : ∀ c ∈ requiredCols, c ∈ t.cols := by
  by_contra hc
  rw [validate_resume_csv, if_pos hc] at h
  simp at h

/-- With the schema complete and a non-empty intersection, validation
succeeds and returns that intersection as the matching-id set. -/
lemma validate_ok_result {t : ResumeTable} {coding : List CodingItem}
    (hcols : ∀ c ∈ requiredCols, c ∈ t.cols)
    (hcard : (resumeIds t ∩ codingIds coding).card ≠ 0) :
    (validate_resume_csv t coding).1 = true ∧
      (validate_resume_csv t coding).2.2 = resumeIds t ∩ codingIds coding := by
  rw [validate_resume_csv, if_neg (not_not_intro hcols), if_neg hcard]
  by_cases hd : 0 < (resumeIds t \ codingIds coding).card
  · rw [if_pos hd]
    exact ⟨rfl, rfl⟩
  · rw [if_neg hd]
    exact ⟨rfl, rfl⟩

/-- Field values of `loadSession` after a successful validation. -/
lemma loadSession_ok {t : ResumeTable} {coding : List CodingItem}
    (st : SessionState) (cn vr : String)
    (h : (validate_resume_csv t coding).1 = true) :
    (loadSession st t coding cn vr).results = acceptedRows t coding ∧
    (loadSession st t coding cn vr).coded_ids = acceptedIds t coding ∧
    (loadSession st t coding cn vr).current_index =
      (match firstUncodedFrom coding (acceptedIds t coding) with
       | some i => i
       | none => coding.length - 1) := by
  rw [loadSession, if_pos h]
  exact ⟨rfl, rfl, rfl⟩

/-- Locked identity fields of `loadSession` after a successful
validation with a non-empty accepted subset. -/
lemma loadSession_locked {t : ResumeTable} {coding : List CodingItem}
    (st : SessionState) (cn vr : String) {r : CodingRecord} {rest : List CodingRecord}
    (h : (validate_resume_csv t coding).1 = true)
    (hacc : acceptedRows t coding = r :: rest) :
    (loadSession st t coding cn vr).locked_coder_name =
      some (if "coder_name" ∈ t.cols then r.coder_name else cn) ∧
    (loadSession st t coding cn vr).locked_variable =
      some (if "variable" ∈ t.cols then r.varName else vr) := by
  rw [loadSession, if_pos h]
  constructor <;> simp [hacc]

/-- C1 (amended): exporting any non-empty record set whose ids all come
from the Item Store and resuming the artifact against the same store
reproduces the records (identifiers, scores and categorical fields all
equal) and rebuilds `coded_ids` — whether the session was partially or
fully coded; when additionally every item of the store is coded, the
resumed cursor is `items.length - 1` — the last index, not one past
it. -/
theorem C1_export_resume_roundtrip (items : List CodingItem) (rs : List CodingRecord)
    (st : SessionState) (cn vr : String)
    (hne : rs ≠ [])
    (hsub : ∀ r ∈ rs, r.coding_id ∈ items.map (fun it => it.coding_id)) :
    (loadSession st (exportTable rs) items cn vr).results = rs ∧
    (loadSession st (exportTable rs) items cn vr).coded_ids =
      (rs.map (fun r => r.coding_id)).toFinset ∧
    ((∀ it ∈ items, it.coding_id ∈ rs.map (fun r => r.coding_id)) →
      (loadSession st (exportTable rs) items cn vr).current_index = items.length - 1) := by
  have hcols : ∀ c ∈ requiredCols, c ∈ (exportTable rs).cols := by
    have hAll : ∀ c ∈ requiredCols, c ∈ allColumns := by decide
    exact hAll
  have hridsEq : resumeIds (exportTable rs) = (rs.map (fun r => r.coding_id)).toFinset := rfl
  have hsubF : resumeIds (exportTable rs) ⊆ codingIds items := by
    intro a ha
    rw [hridsEq, List.mem_toFinset] at ha
    obtain ⟨r, hr, hra⟩ := List.mem_map.mp ha
    rw [codingIds, List.mem_toFinset, ← hra]
    exact hsub r hr
  have hinter : resumeIds (exportTable rs) ∩ codingIds items = resumeIds (exportTable rs) :=
    Finset.inter_eq_left.mpr hsubF
  have hcard : (resumeIds (exportTable rs) ∩ codingIds items).card ≠ 0 := by
    rw [hinter]
    obtain ⟨r, hr⟩ := List.exists_mem_of_ne_nil rs hne
    have hmem : r.coding_id ∈ resumeIds (exportTable rs) := by
      rw [hridsEq, List.mem_toFinset]
      exact List.mem_map_of_mem _ hr
    exact Finset.card_ne_zero_of_mem hmem
  obtain ⟨hok, hmatch⟩ := validate_ok_result hcols hcard
  have haccept : acceptedRows (exportTable rs) items = rs := by
    rw [acceptedRows]
    apply List.filter_eq_self.mpr
    intro r hr
    rw [hmatch, hinter]
    apply decide_eq_true
    rw [hridsEq, List.mem_toFinset]
    exact List.mem_map_of_mem _ hr
  have haccIds : acceptedIds (exportTable rs) items =
      (rs.map (fun r => r.coding_id)).toFinset := by
    rw [acceptedIds, haccept]
  obtain ⟨h1, h2, h3⟩ := loadSession_ok st cn vr hok
  refine ⟨by rw [h1, haccept], by rw [h2, haccIds], ?_⟩
  intro hall
  have hnone : firstUncodedFrom items ((rs.map (fun r => r.coding_id)).toFinset) = none := by
    apply firstUncodedFrom_eq_none
    intro it hit
    rw [List.mem_toFinset]
    exact hall it hit
  rw [h3, haccIds, hnone]

/-- C1 witness: the round-trip theorem applied to the concrete
Scenario-B session over the three-item store, with the all-coded cursor
clause discharged there. -/
theorem C1_export_resume_roundtrip_witness :
    (loadSession initialSessionState (exportTable sessionB.results) storeB
      "alice" "Inflation").results = sessionB.results ∧
    (loadSession initialSessionState (exportTable sessionB.results) storeB
      "alice" "Inflation").coded_ids =
      (sessionB.results.map (fun r => r.coding_id)).toFinset ∧
    (loadSession initialSessionState (exportTable sessionB.results) storeB
      "alice" "Inflation").current_index = storeB.length - 1 := by
  have h := C1_export_resume_roundtrip storeB sessionB.results initialSessionState
    "alice" "Inflation" (by decide) (by decide)
  exact ⟨h.1, h.2.1, h.2.2 (by decide)⟩

/-- C1 counterexample: committing all three items of the three-item
store, exporting, and resuming on a fresh session leaves the cursor at
index 2 (the last item), not at 3 (one past the last index) as the
claim states. -/
theorem C1_cursor_counterexample :
    sessionB.results.length = 3 ∧
    (loadSession initialSessionState (exportTable sessionB.results) storeB
      "alice" "Inflation").current_index = 2 ∧
    ¬ (loadSession initialSessionState (exportTable sessionB.results) storeB
      "alice" "Inflation").current_index = 3 := by
  decide

/-- C2 (amended): the validator fails with the missing-columns error
exactly when a required column is absent; otherwise fails with the
no-overlap error exactly when the id intersection is empty; otherwise
succeeds, the accepted rows are exactly those whose `coding_id` is in
the intersection, and a non-fatal warning carries the number of
distinct dropped `coding_id` values (not the number of dropped rows)
exactly when some table id is outside the Item Store. -/
theorem C2_validator_cases (t : ResumeTable) (coding : List CodingItem) :
    (¬ (∀ c ∈ requiredCols, c ∈ t.cols) →
      validate_resume_csv t coding =
        (false, ResumeMessage.missingColumns
          (requiredCols.filter (fun c => decide (c ∉ t.cols))), ∅)) ∧
    ((∀ c ∈ requiredCols, c ∈ t.cols) →
      resumeIds t ∩ codingIds coding = ∅ →
      validate_resume_csv t coding = (false, ResumeMessage.noOverlap, ∅)) ∧
    ((∀ c ∈ requiredCols, c ∈ t.cols) →
      resumeIds t ∩ codingIds coding ≠ ∅ →
      (validate_resume_csv t coding).1 = true ∧
      (validate_resume_csv t coding).2.2 = resumeIds t ∩ codingIds coding ∧
      acceptedRows t coding =
        t.rows.filter (fun r => decide (r.coding_id ∈ resumeIds t ∩ codingIds coding)) ∧
      (resumeIds t \ codingIds coding ≠ ∅ →
        (validate_resume_csv t coding).2.1 =
          ResumeMessage.warningDropped (resumeIds t \ codingIds coding).card) ∧
      (resumeIds t \ codingIds coding = ∅ →
        (validate_resume_csv t coding).2.1 =
          ResumeMessage.validated (resumeIds t ∩ codingIds coding).card)) := by
  refine ⟨?_, ?_, ?_⟩
  · intro hc
    rw [validate_resume_csv, if_pos hc]
  · intro hcols hempty
    rw [validate_resume_csv, if_neg (not_not_intro hcols), if_pos (by rw [hempty]; simp)]
  · intro hcols hne
    have hcard : (resumeIds t ∩ codingIds coding).card ≠ 0 := by
      simpa [Finset.card_eq_zero] using hne
    obtain ⟨hok, hmatch⟩ := validate_ok_result hcols hcard
    refine ⟨hok, hmatch, ?_, ?_, ?_⟩
    · rw [acceptedRows, hmatch]
    · intro hd
      have hdc : 0 < (resumeIds t \ codingIds coding).card := by
        simpa [Finset.card_pos] using Finset.nonempty_iff_ne_empty.mpr hd
      rw [validate_resume_csv, if_neg (not_not_intro hcols), if_neg hcard, if_pos hdc]
    · intro hd
      have hdc : ¬ 0 < (resumeIds t \ codingIds coding).card := by
        rw [hd]
        simp
      rw [validate_resume_csv, if_neg (not_not_intro hcols), if_neg hcard, if_neg hdc]

/-- C2 witness: the success-with-warning branch of the validator
applied to a concrete table overlapping the one-item store. -/
theorem C2_validator_cases_witness :
    (validate_resume_csv t2cx store1).1 = true ∧
    (validate_resume_csv t2cx store1).2.2 = resumeIds t2cx ∩ codingIds store1 ∧
    acceptedRows t2cx store1 =
      t2cx.rows.filter (fun r => decide (r.coding_id ∈ resumeIds t2cx ∩ codingIds store1)) ∧
    (resumeIds t2cx \ codingIds store1 ≠ ∅ →
      (validate_resume_csv t2cx store1).2.1 =
        ResumeMessage.warningDropped (resumeIds t2cx \ codingIds store1).card) ∧
    (resumeIds t2cx \ codingIds store1 = ∅ →
      (validate_resume_csv t2cx store1).2.1 =
        ResumeMessage.validated (resumeIds t2cx ∩ codingIds store1).card) :=
  (C2_validator_cases t2cx store1).2.2 (by decide) (by decide)

/-- C2 counterexample: a table with two rows sharing the unmatched id
`Q9` drops two rows, yet the warning reports the count 1 (the number of
distinct dropped ids), refuting "the count of dropped rows". -/
theorem C2_dropped_rows_counterexample :
    (t2cx.rows.filter (fun r => decide (r.coding_id ∉ codingIds store1))).length = 2 ∧
    (validate_resume_csv t2cx store1).2.1 = ResumeMessage.warningDropped 1 ∧
    ¬ (validate_resume_csv t2cx store1).2.1 = ResumeMessage.warningDropped 2 := by
  decide

/-- C3: after a successful resume, `coded_ids` is the accepted-row id
set and the cursor sits at the first item whose id is not among the
accepted ids — in range, uncoded, all earlier items coded — or at the
last item when every item is coded. -/
theorem C3_resume_cursor (st : SessionState) (t : ResumeTable) (coding : List CodingItem)
    (cn vr : String) (hok : (validate_resume_csv t coding).1 = true) :
    (loadSession st t coding cn vr).coded_ids = acceptedIds t coding ∧
    ((∀ it ∈ coding, it.coding_id ∈ acceptedIds t coding) →
      (loadSession st t coding cn vr).current_index = coding.length - 1) ∧
    (∀ i, firstUncodedFrom coding (acceptedIds t coding) = some i →
      (loadSession st t coding cn vr).current_index = i ∧
      i < coding.length ∧
      (itemAt coding i).coding_id ∉ acceptedIds t coding ∧
      ∀ j, j < i → (itemAt coding j).coding_id ∈ acceptedIds t coding) := by
  obtain ⟨h1, h2, h3⟩ := loadSession_ok st cn vr hok
  refine ⟨h2, ?_, ?_⟩
  · intro hallc
    rw [h3, firstUncodedFrom_eq_none hallc]
  · intro i hi
    obtain ⟨ha, hb, hc⟩ := firstUncodedFrom_spec hi
    exact ⟨by rw [h3, hi], ha, hb, hc⟩

/-- C3 witness: Scenario C — resuming `{Q1, Q5}` against `{Q1, Q2, Q3}`
puts the cursor at index 1, the item Q2. -/
theorem C3_resume_cursor_witness :
    (loadSession initialSessionState tC storeB "bob" "Employment").current_index = 1 ∧
    1 < storeB.length ∧
    (itemAt storeB 1).coding_id ∉ acceptedIds tC storeB ∧
    ∀ j, j < 1 → (itemAt storeB j).coding_id ∈ acceptedIds tC storeB :=
  (C3_resume_cursor initialSessionState tC storeB "bob" "Employment" (by decide)).2.2
    1 (by decide)

/-- C4: the commit loop is an upsert keyed by `coding_id`: keys stay
pairwise distinct, an existing key keeps the record count (the whole
prior entry is replaced, with no field-level merge), a fresh key
appends, every surviving record is the new one or an untouched record
with a different key, and a second commit of a record with the same key
(for example, the same record with a new timestamp) fully overwrites
the first. -/
theorem C4_commit_upsert (rs : List CodingRecord) (r r2 : CodingRecord)
    (hnd : (rs.map (fun z => z.coding_id)).Nodup) (hsame : r2.coding_id = r.coding_id) :
    ((upsert rs r).map (fun z => z.coding_id)).Nodup ∧
    (r.coding_id ∈ rs.map (fun z => z.coding_id) → (upsert rs r).length = rs.length) ∧
    (r.coding_id ∉ rs.map (fun z => z.coding_id) → upsert rs r = rs ++ [r]) ∧
    (∀ x ∈ upsert rs r, x = r ∨ (x ∈ rs ∧ x.coding_id ≠ r.coding_id)) ∧
    upsert (upsert rs r) r2 = upsert rs r2 :=
  ⟨upsert_ids_nodup r hnd, fun hm => upsert_length_mem r hm,
    fun hm => upsert_eq_append r hm, fun _ hx => mem_upsert_of_nodup hnd hx,
    upsert_upsert rs hsame⟩

/-- C4 witness: the upsert semantics applied to a one-record list and a
same-key record differing only in the timestamp. -/
theorem C4_commit_upsert_witness :
    (((upsert [mkRow ("Q1") ("a") ("I") 1] { mkRow ("Q1") ("a") ("I") 2 with coded_at := 5 }).map
      (fun z => z.coding_id)).Nodup) ∧
    ({ mkRow ("Q1") ("a") ("I") 2 with coded_at := 5 }.coding_id ∈
        [mkRow ("Q1") ("a") ("I") 1].map (fun z => z.coding_id) →
      (upsert [mkRow ("Q1") ("a") ("I") 1]
        { mkRow ("Q1") ("a") ("I") 2 with coded_at := 5 }).length =
        [mkRow ("Q1") ("a") ("I") 1].length) ∧
    ({ mkRow ("Q1") ("a") ("I") 2 with coded_at := 5 }.coding_id ∉
        [mkRow ("Q1") ("a") ("I") 1].map (fun z => z.coding_id) →
      upsert [mkRow ("Q1") ("a") ("I") 1] { mkRow ("Q1") ("a") ("I") 2 with coded_at := 5 } =
        [mkRow ("Q1") ("a") ("I") 1] ++ [{ mkRow ("Q1") ("a") ("I") 2 with coded_at := 5 }]) ∧
    (∀ x ∈ upsert [mkRow ("Q1") ("a") ("I") 1]
        { mkRow ("Q1") ("a") ("I") 2 with coded_at := 5 },
      x = { mkRow ("Q1") ("a") ("I") 2 with coded_at := 5 } ∨
        (x ∈ [mkRow ("Q1") ("a") ("I") 1] ∧
          x.coding_id ≠ { mkRow ("Q1") ("a") ("I") 2 with coded_at := 5 }.coding_id)) ∧
    upsert (upsert [mkRow ("Q1") ("a") ("I") 1]
        { mkRow ("Q1") ("a") ("I") 2 with coded_at := 5 })
        { mkRow ("Q1") ("a") ("I") 2 with coded_at := 9 } =
      upsert [mkRow ("Q1") ("a") ("I") 1] { mkRow ("Q1") ("a") ("I") 2 with coded_at := 9 } :=
  C4_commit_upsert [mkRow ("Q1") ("a") ("I") 1]
    { mkRow ("Q1") ("a") ("I") 2 with coded_at := 5 }
    { mkRow ("Q1") ("a") ("I") 2 with coded_at := 9 } (by decide) (by decide)

/-- C5 (amended): the first commit locks the coder name and variable to
the sidebar values; once `LockedConsistent` holds (every stored record
carries the locked values) a commit preserves it, because the written
record always carries the locked values; a successful resume locks the
coder name from the first accepted record (its column is required), but
locks the variable from that record only when the table has a
`variable` column, falling back to the session's currently selected
variable otherwise. -/
theorem C5_identity_locking (items : List CodingItem) (cn vr : String) (f : FormState)
    (now : Nat) (st : SessionState) (t : ResumeTable) (coding : List CodingItem)
    (r : CodingRecord) (rest : List CodingRecord) :
    (st.locked_coder_name = none →
      (saveAndContinue items cn vr f now st).locked_coder_name = some cn) ∧
    (st.locked_variable = none →
      (saveAndContinue items cn vr f now st).locked_variable = some vr) ∧
    (LockedConsistent st → LockedConsistent (saveAndContinue items cn vr f now st)) ∧
    ((validate_resume_csv t coding).1 = true → acceptedRows t coding = r :: rest →
      (loadSession st t coding cn vr).locked_coder_name = some r.coder_name ∧
      (loadSession st t coding cn vr).locked_variable =
        some (if "variable" ∈ t.cols then r.varName else vr)) := by
  refine ⟨?_, ?_, ?_, ?_⟩
  · intro h
    simp [saveAndContinue, h]
  · intro h
    simp [saveAndContinue, h]
  · intro h x hx
    simp only [saveAndContinue] at hx ⊢
    rcases mem_upsert hx with h1 | h2
    · subst h1
      exact ⟨rfl, rfl⟩
    · obtain ⟨hcn, hvv⟩ := h x h2
      constructor
      · rw [hcn]
        rfl
      · rw [hvv]
        rfl
  · intro hok hacc
    obtain ⟨hA, hB⟩ := loadSession_locked st cn vr hok hacc
    refine ⟨?_, hB⟩
    rw [hA, if_pos (validate_cols_of_ok hok ("coder_name") (by decide))]

/-- C5 witness: resuming the Scenario-C artifact (which has a
`variable` column) locks both identity fields from its first accepted
record rather than from the sidebar values. -/
theorem C5_identity_locking_witness :
    (loadSession initialSessionState tC storeB "typed" "Employment").locked_coder_name =
      some "alice" ∧
    (loadSession initialSessionState tC storeB "typed" "Employment").locked_variable =
      some "Inflation" := by
  have h := (C5_identity_locking storeB "typed" "Employment" (formNo 0) 0
      initialSessionState tC storeB (mkRow ("Q1") ("alice") ("Inflation") 1) []).2.2.2
      (by decide) (by decide)
  exact ⟨h.1, h.2.trans (by decide)⟩

/-- C5 counterexample: a schema-valid resume artifact without a
`variable` column locks the variable to the session's currently
selected value ("Employment"), not to a value of the resume file,
refuting the claim that a successful resume always sets the locked
values from the first accepted record. -/
theorem C5_locked_variable_counterexample :
    (validate_resume_csv t5 store1).1 = true ∧
    (loadSession initialSessionState t5 store1 "typed" "Employment").locked_variable =
      some "Employment" := by
  decide

/-- The record built by the commit handler always satisfies
conditional-field integrity. -/
lemma buildRecord_integrity (ln lv cid : String) (f : FormState) (now : Nat) :
    ConditionalIntegrity (buildRecord ln lv cid f now) := by
  rw [ConditionalIntegrity]
  simp only [buildRecord]
  refine ⟨?_, ?_, ?_⟩
  · intro hno
    have hyes : ¬ f.cites_data = "Yes" := by
      rw [hno]
      decide
    have hdl : dataCategoriesList f = [] := by
      rw [dataCategoriesList, if_neg hyes]
    rw [if_pos hdl, if_neg (fun hc => hyes hc.1), if_neg hyes]
    exact ⟨rfl, rfl, rfl⟩
  · intro hother
    by_cases hc : f.cites_data = "Yes" ∧ f.other_checked
    · refine ⟨dataCategoriesList f, ?_, ?_⟩
      · rw [dataCategoriesList, if_pos hc.1, if_pos hc.2]
        exact List.mem_append_right _ (List.mem_cons_self _ _)
      · rw [if_neg ?_]
        rw [dataCategoriesList, if_pos hc.1, if_pos hc.2]
        simp
    · rw [if_neg hc] at hother
      exact absurd rfl hother
  · intro hao
    rw [if_neg hao]

/-- C6 (amended): conditional-field integrity is preserved by the
commit path — every record in the record set after a Save & Continue
satisfies it if all records did before — because the record the handler
builds coerces every field of an untaken branch to absent. -/
theorem C6_commit_integrity (items : List CodingItem) (cn vr : String) (f : FormState)
    (now : Nat) (st : SessionState)
    (h : ∀ x ∈ st.results, ConditionalIntegrity x) :
    ∀ x ∈ (saveAndContinue items cn vr f now st).results, ConditionalIntegrity x := by
  intro x hx
  simp only [saveAndContinue] at hx
  rcases mem_upsert hx with h1 | h2
  · subst h1
    exact buildRecord_integrity _ _ _ f now
  · exact h x h2

/-- C6 witness: integrity of the record stored by committing a
data-citing form with the "Other" data category on a fresh session. -/
theorem C6_commit_integrity_witness :
    ConditionalIntegrity (buildRecord ("a") ("Inflation") ("Q1") formYes 0) :=
  C6_commit_integrity storeB "a" "Inflation" formYes 0 initialSessionState
    (by intro x hx; simp [initialSessionState] at hx)
    (buildRecord ("a") ("Inflation") ("Q1") formYes 0) (by decide)

/-- C6 counterexample: a resume artifact row with `cites_data = "No"`
but a present `data_categories` value is accepted verbatim into the
record set, so the integrity invariant does not hold for every record
after every operation. -/
theorem C6_integrity_counterexample :
    (loadSession initialSessionState t6 store1 "typed" "Inflation").results = [badRec] ∧
    badRec.cites_data = "No" ∧
    ¬ badRec.data_categories = none := by
  decide

/-- C7 (amended): every record produced by the commit path has an
integer score within [-3, 3] — the widget bounds — so the range
invariant is preserved by Save & Continue; resumed records, however,
carry whatever score the artifact contains. -/
theorem C7_commit_score_range (items : List CodingItem) (cn vr : String) (f : FormState)
    (now : Nat) (st : SessionState) (hwf : FormWF f)
    (h : ∀ x ∈ st.results, -3 ≤ x.score ∧ x.score ≤ 3) :
    ∀ x ∈ (saveAndContinue items cn vr f now st).results, -3 ≤ x.score ∧ x.score ≤ 3 := by
  intro x hx
  simp only [saveAndContinue] at hx
  rcases mem_upsert hx with h1 | h2
  · subst h1
    exact hwf.1
  · exact h x h2

/-- C7 witness: the score-range preservation applied to the record
stored by a commit on a fresh session. -/
theorem C7_commit_score_range_witness :
    -3 ≤ (buildRecord ("a") ("Inflation") ("Q1") (formNo 2) 0).score ∧
    (buildRecord ("a") ("Inflation") ("Q1") (formNo 2) 0).score ≤ 3 :=
  C7_commit_score_range storeB "a" "Inflation" (formNo 2) 0 initialSessionState
    (by rw [FormWF]; decide) (by intro x hx; simp [initialSessionState] at hx)
    (buildRecord ("a") ("Inflation") ("Q1") (formNo 2) 0) (by decide)

/-- C7 counterexample: a resume artifact whose row has score 7 is
accepted into the record set unvalidated, refuting the claim that after
every operation every stored score lies within [-3, 3]. -/
theorem C7_score_counterexample :
    (loadSession initialSessionState t7 store1 "typed" "Inflation").results =
      [mkRow ("Q1") ("alice") ("Inflation") 7] ∧
    (mkRow ("Q1") ("alice") ("Inflation") 7).score = 7 ∧
    ¬ (-3 ≤ (mkRow ("Q1") ("alice") ("Inflation") 7).score ∧
        (mkRow ("Q1") ("alice") ("Inflation") 7).score ≤ 3) := by
  decide

/-- C8 (amended): the code has no `IncompleteForm` rejection — a commit
whose current branch requires the "Other" argument free text that was
left empty still writes a record (carrying the empty text) keyed to the
current item, and the cursor advances exactly as for any other commit. -/
theorem C8_commit_never_rejected (items : List CodingItem) (cn vr : String)
    (f : FormState) (now : Nat) (st : SessionState)
    (hmiss : f.argument_category = "Other / No Good Match" ∧
      f.argument_category_other_text = "") :
    (∃ x ∈ (saveAndContinue items cn vr f now st).results,
      x.coding_id = (itemAt items st.current_index).coding_id ∧
      x.argument_category_other = some "") ∧
    (st.current_index + 1 < items.length →
      (saveAndContinue items cn vr f now st).current_index = st.current_index + 1) := by
  constructor
  · refine ⟨buildRecord (st.locked_coder_name.getD cn) (st.locked_variable.getD vr)
      (itemAt items st.current_index).coding_id f now, upsert_self_mem st.results _, rfl, ?_⟩
    show (if f.argument_category = "Other / No Good Match"
        then some f.argument_category_other_text else none) = some ""
    rw [if_pos hmiss.1, hmiss.2]
  · intro hlt
    show (if st.current_index < items.length - 1 then st.current_index + 1
        else st.current_index) = st.current_index + 1
    rw [if_pos (by omega)]

/-- C8 witness: committing the incomplete "Other"-category form on a
fresh session over the three-item store. -/
theorem C8_commit_never_rejected_witness :
    (∃ x ∈ (saveAndContinue storeB "a" "Inflation" f8 0 initialSessionState).results,
      x.coding_id = (itemAt storeB initialSessionState.current_index).coding_id ∧
      x.argument_category_other = some "") ∧
    (initialSessionState.current_index + 1 < storeB.length →
      (saveAndContinue storeB "a" "Inflation" f8 0 initialSessionState).current_index =
        initialSessionState.current_index + 1) :=
  C8_commit_never_rejected storeB "a" "Inflation" f8 0 initialSessionState (by decide)

/-- C8 counterexample: a commit with the "Other / No Good Match"
argument category selected and the required free text empty is not
rejected — a record is written and the cursor advances, refuting
"fails with IncompleteForm: no record written, cursor unchanged". -/
theorem C8_incomplete_form_counterexample :
    (saveAndContinue storeB "a" "Inflation" f8 0 initialSessionState).results.length = 1 ∧
    (saveAndContinue storeB "a" "Inflation" f8 0 initialSessionState).current_index = 1 ∧
    ¬ (saveAndContinue storeB "a" "Inflation" f8 0 initialSessionState).current_index = 0 := by
  decide

/-- C9 (amended): Save & Continue on the final item commits the record
(it is in the record set afterwards) but keeps the cursor at the last
index `items.length - 1`; the position never becomes one past the last
via this handler, so the terminal display state is not reached this
way. -/
theorem C9_save_on_final_item (items : List CodingItem) (cn vr : String) (f : FormState)
    (now : Nat) (st : SessionState) (hlast : st.current_index = items.length - 1) :
    (saveAndContinue items cn vr f now st).current_index = items.length - 1 ∧
    buildRecord (st.locked_coder_name.getD cn) (st.locked_variable.getD vr)
      (itemAt items st.current_index).coding_id f now ∈
      (saveAndContinue items cn vr f now st).results := by
  constructor
  · show (if st.current_index < items.length - 1 then st.current_index + 1
        else st.current_index) = items.length - 1
    rw [hlast, if_neg (lt_irrefl _)]
  · exact upsert_self_mem st.results _

/-- C9 witness: committing on the final item of the three-item store. -/
theorem C9_save_on_final_item_witness :
    (saveAndContinue storeB "a" "Inflation" (formNo 1) 0 s9).current_index =
      storeB.length - 1 ∧
    buildRecord (s9.locked_coder_name.getD "a") (s9.locked_variable.getD "Inflation")
      (itemAt storeB s9.current_index).coding_id (formNo 1) 0 ∈
      (saveAndContinue storeB "a" "Inflation" (formNo 1) 0 s9).results :=
  C9_save_on_final_item storeB "a" "Inflation" (formNo 1) 0 s9 (by decide)

/-- C9 counterexample: Save & Continue on the final item (index 2 of a
three-item store) commits the record but leaves the position at 2, not
at `len(items) = 3` as the claim states. -/
theorem C9_terminal_position_counterexample :
    (saveAndContinue storeB "a" "Inflation" (formNo 1) 0 s9).results.length = 1 ∧
    (saveAndContinue storeB "a" "Inflation" (formNo 1) 0 s9).current_index = 2 ∧
    ¬ (saveAndContinue storeB "a" "Inflation" (formNo 1) 0 s9).current_index =
      storeB.length := by
  decide

/-- C10 (amended): `coded_ids` equals the set of stored record ids
after initialization, after every commit, and after every resume
(successful or not); the coded count equals the number of stored
records exactly under the additional hypothesis that the stored ids are
pairwise distinct — which commits preserve, but which a resume artifact
with duplicate ids violates. -/
theorem C10_coded_ids_invariant (items : List CodingItem) (cn vr : String) (f : FormState)
    (now : Nat) (st : SessionState) (t : ResumeTable) (coding : List CodingItem) :
    CodedConsistent initialSessionState ∧
    (CodedConsistent st → CodedConsistent (saveAndContinue items cn vr f now st)) ∧
    (CodedConsistent st → CodedConsistent (loadSession st t coding cn vr)) ∧
    (CodedConsistent st → (st.results.map (fun r => r.coding_id)).Nodup →
      st.coded_ids.card = st.results.length) := by
  refine ⟨rfl, ?_, ?_, ?_⟩
  · intro h
    rw [CodedConsistent] at h ⊢
    show insert (itemAt items st.current_index).coding_id st.coded_ids =
      ((upsert st.results (buildRecord (st.locked_coder_name.getD cn)
        (st.locked_variable.getD vr) (itemAt items st.current_index).coding_id f now)).map
          (fun z => z.coding_id)).toFinset
    rw [upsert_map_ids, buildRecord_coding_id]
    by_cases hm : (itemAt items st.current_index).coding_id ∈
        st.results.map (fun z => z.coding_id)
    · rw [if_pos hm, h]
      exact Finset.insert_eq_self.mpr (List.mem_toFinset.mpr hm)
    · rw [if_neg hm, h, List.toFinset_append]
      ext a
      simp [or_comm]
  · intro h
    rw [CodedConsistent] at h ⊢
    rw [loadSession]
    by_cases hok : (validate_resume_csv t coding).1 = true
    · rw [if_pos hok]
      rfl
    · rw [if_neg hok]
      exact h
  · intro h hnd
    rw [CodedConsistent] at h
    rw [h, List.toFinset_card_of_nodup hnd, List.length_map]

/-- C10 witness: the count equality applied to the Scenario-B session,
whose stored ids are pairwise distinct. -/
theorem C10_coded_ids_invariant_witness :
    sessionB.coded_ids.card = sessionB.results.length :=
  (C10_coded_ids_invariant storeB "a" "I" (formNo 0) 0 sessionB tC storeB).2.2.2
    (by rw [CodedConsistent]; decide) (by decide)

/-- C10 counterexample: resuming an artifact with two rows sharing the
id `Q1` stores two records but one coded id, so the reported coded
count does not equal the number of stored records. -/
theorem C10_count_counterexample :
    (loadSession initialSessionState t10 store1 "t" "I").results.length = 2 ∧
    (loadSession initialSessionState t10 store1 "t" "I").coded_ids.card = 1 ∧
    ¬ (loadSession initialSessionState t10 store1 "t" "I").coded_ids.card =
      (loadSession initialSessionState t10 store1 "t" "I").results.length := by
  decide

end FomcCoding
